import Mathlib

/-!
Verification of the safe file-edit / path-validation / file-index subsystem
of the git-workspace server, via a shallow embedding of the JavaScript
sources (`src/server/utils/*.js`, `src/server/file-index/*.js`,
`src/server/utils/file-operations`) into Lean.

Strings are modelled as `List Char` (JS strings are sequences of UTF-16
units; all inputs considered here are ASCII, where the two models agree).
Filesystem effects are modelled by explicit state passing and oracles for
the nondeterministic outcomes (what a read returns, whether a write
succeeds), mirroring the order of `await` points in the source.
-/

namespace GitWorkspace

/-! ## JavaScript string primitives -/

/-- The backtick character (obtained from a string literal). -/
def backtick : Char := "`".data.headD ' '

/-- JS `String.prototype.includes`: substring containment. -/
def jsIncludes (s pat : List Char) : Bool :=
  s.tails.any (fun t => pat.isPrefixOf t)

/-- Characters matched by JS `\s` / trimmed by `String.prototype.trim`
(the ASCII ones; the sources only meet ASCII whitespace). -/
def jsWhitespace (c : Char) : Bool :=
  c = ' ' || c = '\t' || c = '\n' || c = '\r' || c = '\x0b' || c = '\x0c'

/-- JS `String.prototype.trim`. -/
def jsTrim (s : List Char) : List Char :=
  ((s.dropWhile jsWhitespace).reverse.dropWhile jsWhitespace).reverse

/-- JS `String.prototype.trimStart`. -/
def jsTrimStart (s : List Char) : List Char :=
  s.dropWhile jsWhitespace

/-- JS `line.match(/^\s*/)?.[0] || ''`: the leading whitespace of a line. -/
def leadingWhitespace (s : List Char) : List Char :=
  s.takeWhile jsWhitespace

/-- JS `String.prototype.replace` with a plain-string pattern:
replace the first occurrence of `old` (JS replaces at the earliest index;
an empty pattern matches at index 0). -/
def replaceFirst (s old new : List Char) : List Char :=
  match s with
  | [] => if old.isPrefixOf ([] : List Char) then new else []
  | c :: rest =>
    if old.isPrefixOf (c :: rest) then new ++ (c :: rest).drop old.length
    else c :: replaceFirst rest old new

/-! ## `utils/line-ending.js` -/

/-- `detectLineEnding(content)` from `line-ending.js`:
first `\r\n`, else `\r`, else `\n`. -/
def detectLineEnding (content : List Char) : List Char :=
  if jsIncludes content ['\r', '\n'] then ['\r', '\n']
  else if jsIncludes content ['\r'] then ['\r']
  else ['\n']

/-- `normalizeLineEndings(text)` from `line-ending.js`:
`text.replace(/\r\n/g, '\n')` — every `\r\n` becomes `\n`
(left to right, non-overlapping, as a global regex replace). -/
def normalizeLineEndings : List Char → List Char
  | [] => []
  | '\r' :: '\n' :: rest => '\n' :: normalizeLineEndings rest
  | c :: rest => c :: normalizeLineEndings rest

/-- JS `content.split(/\r?\n/)`: split on `\r\n` or bare `\n`
(a lone `\r` is not a separator). -/
def splitRN : List Char → List (List Char)
  | [] => [[]]
  | '\r' :: '\n' :: rest => [] :: splitRN rest
  | '\n' :: rest => [] :: splitRN rest
  | c :: rest =>
    match splitRN rest with
    | [] => [[c]]
    | l :: ls => (c :: l) :: ls

/-- JS `content.split('\n')`. -/
def splitNL : List Char → List (List Char)
  | [] => [[]]
  | '\n' :: rest => [] :: splitNL rest
  | c :: rest =>
    match splitNL rest with
    | [] => [[c]]
    | l :: ls => (c :: l) :: ls

/-- JS `Array.prototype.join(sep)` on a list of lines. -/
def joinSep (sep : List Char) (lines : List (List Char)) : List Char :=
  List.intercalate sep lines

/-! ## `utils/diff.js` — `formatDiff` -/

/-- The `while (diff.includes('`'.repeat(numBackticks))) numBackticks++`
loop of `formatDiff`, starting from `n`.  The fuel argument bounds the
iteration count; `numBackticksFor` supplies fuel `diff.length + 1`, which
is shown sufficient by `fenceLenAux_spec` (the loop always exits because a
run longer than the whole string cannot occur in it). -/
def fenceLenAux (diff : List Char) : Nat → Nat → Nat
  | 0, n => n
  | fuel + 1, n =>
    if jsIncludes diff (List.replicate n backtick) then
      fenceLenAux diff fuel (n + 1)
    else n

/-- The number of backticks `formatDiff` uses for its fence
(`let numBackticks = 3; while (diff.includes(...)) numBackticks++`). -/
def numBackticksFor (diff : List Char) : Nat :=
  fenceLenAux diff (diff.length + 1) 3

/-- `formatDiff(diff)` from `diff.js`:
``` `${fence}diff\n${diff}${fence}\n\n` ```. -/
def formatDiff (diff : List Char) : List Char :=
  List.replicate (numBackticksFor diff) backtick ++ "diff\n".data ++ diff
    ++ List.replicate (numBackticksFor diff) backtick ++ "\n\n".data

/-- Modelled from the spec: "count existing runs of the fence character
and use one more than the longest run found" — the length of the longest
run of consecutive backticks in `l`.  Used only to compare the spec's
formula with the source's behaviour. -/
def longestBacktickRun (l : List Char) : Nat :=
  (l.foldl
    (fun acc c =>
      if c = backtick then (acc.1 + 1, max acc.2 (acc.1 + 1))
      else (0, acc.2))
    ((0, 0) : Nat × Nat)).2

/-! ### Lemmas about the fence loop -/

theorem jsIncludes_length_le {l pat : List Char} (h : jsIncludes l pat = true) :
    pat.length ≤ l.length := by
  unfold jsIncludes at h
  rw [List.any_eq_true] at h
  obtain ⟨t, ht, hpre⟩ := h
  have hsuf : t <:+ l := by
    have := (List.mem_tails t l).mp ht
    exact this
  have h1 : pat.length ≤ t.length := by
    have : pat <+: t := by
      exact List.isPrefixOf_iff_prefix.mp hpre
    exact this.length_le
  exact h1.trans hsuf.length_le

theorem fenceLenAux_spec (diff : List Char) :
    ∀ fuel n, diff.length + 1 ≤ fuel + n →
      jsIncludes diff (List.replicate (fenceLenAux diff fuel n) backtick) = false
      ∧ n ≤ fenceLenAux diff fuel n
      ∧ ∀ m, n ≤ m → m < fenceLenAux diff fuel n →
          jsIncludes diff (List.replicate m backtick) = true := by
  intro fuel
  induction fuel with
  | zero =>
    intro n hn
    refine ⟨?_, Nat.le_refl _, ?_⟩
    · show jsIncludes diff (List.replicate n backtick) = false
      by_contra h
      have h' : jsIncludes diff (List.replicate n backtick) = true := by
        cases hx : jsIncludes diff (List.replicate n backtick) with
        | false => exact absurd hx h
        | true => rfl
      have := jsIncludes_length_le h'
      rw [List.length_replicate] at this
      omega
    · intro m hm1 hm2
      simp only [fenceLenAux] at hm2
      omega
  | succ fuel ih =>
    intro n hn
    by_cases h : jsIncludes diff (List.replicate n backtick) = true
    · have heq : fenceLenAux diff (fuel + 1) n = fenceLenAux diff fuel (n + 1) := by
        simp [fenceLenAux, h]
      obtain ⟨h1, h2, h3⟩ := ih (n + 1) (by omega)
      rw [heq]
      refine ⟨h1, by omega, ?_⟩
      intro m hm1 hm2
      rcases Nat.eq_or_lt_of_le hm1 with hm | hm
      · rw [← hm]; exact h
      · exact h3 m hm hm2
    · have hfalse : jsIncludes diff (List.replicate n backtick) = false := by
        cases hx : jsIncludes diff (List.replicate n backtick) with
        | false => rfl
        | true => exact absurd hx h
      have heq : fenceLenAux diff (fuel + 1) n = n := by
        simp [fenceLenAux, hfalse]
      rw [heq]
      exact ⟨hfalse, Nat.le_refl _, fun m hm1 hm2 => absurd hm2 (by omega)⟩

/-- C9 (amended): the fence `formatDiff` uses is the smallest length ≥ 3
whose backtick run does not occur in the diff body — so it never collides
with a backtick sequence in the body, but it equals one more than the
longest run only when that run has length at least 2; otherwise it is 3. -/
theorem formatDiff_fence_minimal (diff : List Char) :
    3 ≤ numBackticksFor diff
    ∧ jsIncludes diff (List.replicate (numBackticksFor diff) backtick) = false
    ∧ ∀ m, 3 ≤ m → m < numBackticksFor diff →
        jsIncludes diff (List.replicate m backtick) = true := by
  have h := fenceLenAux_spec diff (diff.length + 1) 3 (by omega)
  exact ⟨h.2.1, h.1, h.2.2⟩

/-- C9 witness: the amended fence property evaluated on the concrete diff
body `a``b` (longest run 2, fence 3). -/
theorem formatDiff_fence_minimal_witness :
    3 ≤ numBackticksFor ("a``b".data)
    ∧ jsIncludes ("a``b".data)
        (List.replicate (numBackticksFor ("a``b".data)) backtick) = false
    ∧ ∀ m, 3 ≤ m → m < numBackticksFor ("a``b".data) →
        jsIncludes ("a``b".data) (List.replicate m backtick) = true :=
  formatDiff_fence_minimal ("a``b".data)

/-- C9 counterexample: for a diff body with no backticks at all the fence
has 3 backticks, not `longest run + 1 = 1` as the claim states. -/
theorem formatDiff_fence_not_longestRun_succ :
    numBackticksFor ("abc".data) ≠ longestBacktickRun ("abc".data) + 1 := by
  decide

/-! ## `server/file-index` — catalog entries and search (`search.js`) -/

/-- One value of the file-index `Map` built by `buildFileIndex`
(`{path, name, size, modified, priority, extension}`). -/
structure FileInfo where
  path : String
  name : String
  size : Nat
  modified : Int
  priority : Nat
  extension : String
deriving DecidableEq, Repr

/-- JS `String.prototype.toLowerCase` (ASCII model). -/
def jsToLower (s : String) : String :=
  String.mk (s.data.map Char.toLower)

/-- `includes` lifted to `String`. -/
def includesStr (s pat : String) : Bool :=
  jsIncludes s.data pat.data

/-- `PRIORITY_FILES` from `constants.js`. -/
def PRIORITY_FILES : List String :=
  ["package.json", "requirements.txt", "dockerfile", "makefile", "readme.md"]

/-- `FILE_EXTENSIONS.CODE` from `constants.js`. -/
def CODE_EXTENSIONS : List String :=
  [".py", ".js", ".ts", ".jsx", ".tsx", ".java", ".cpp", ".c", ".h",
   ".cs", ".php", ".rb", ".go", ".rs", ".swift", ".kt", ".scala"]

/-- `FILE_EXTENSIONS.CONFIG` from `constants.js`. -/
def CONFIG_EXTENSIONS : List String :=
  [".json", ".yaml", ".yml", ".toml", ".ini", ".cfg", ".conf"]

/-- `FILE_EXTENSIONS.DOCS` from `constants.js`. -/
def DOCS_EXTENSIONS : List String :=
  [".md", ".txt", ".rst", ".adoc"]

/-- Split a character list on `/` (used to take path segments). -/
def splitSlash : List Char → List (List Char)
  | [] => [[]]
  | '/' :: rest => [] :: splitSlash rest
  | c :: rest =>
    match splitSlash rest with
    | [] => [[c]]
    | l :: ls => (c :: l) :: ls

/-- `path.basename` for the POSIX paths used here: the part after the
last separator. -/
def jsBasename (p : String) : String :=
  String.mk ((splitSlash p.data).getLastD p.data)

/-- `getFilePriority(filePath, extension)` from `file-index/index.js`. -/
def getFilePriority (filePath extension : String) : Nat :=
  let name := jsToLower (jsBasename filePath)
  if name ∈ PRIORITY_FILES then 1
  else if extension ∈ CODE_EXTENSIONS then 2
  else if extension ∈ CONFIG_EXTENSIONS then 3
  else if extension ∈ DOCS_EXTENSIONS then 4
  else 5

/-- Model of JS `String.prototype.localeCompare` for the ASCII strings
appearing here: code-point comparison (negative / zero / positive). -/
def localeCompareModel (a b : String) : Int :=
  if a = b then 0 else if a < b then -1 else 1

/-- The score the `searchFileIndex` loop assigns to one entry, given the
pre-lowered query (`queryLower`).  `info.path.length` is the JS string
length of the relative path. -/
def scoreEntry (queryLower : String) (info : FileInfo) : Int :=
  if jsToLower info.path = queryLower then 1000
  else if jsToLower info.name = queryLower then 900
  else if includesStr (jsToLower info.path) queryLower then
    500 + (100 - (info.path.length : Int))
  else if includesStr (jsToLower info.name) queryLower then
    400 + (50 - (info.name.length : Int))
  else 0

/-- The comparator passed to `results.sort` in `searchFileIndex`:
score descending, then priority ascending, then `name.localeCompare`. -/
def searchCmp (a b : FileInfo × Int) : Int :=
  if a.2 ≠ b.2 then b.2 - a.2
  else if a.1.priority ≠ b.1.priority then (a.1.priority : Int) - (b.1.priority : Int)
  else localeCompareModel a.1.name b.1.name

/-- Insert `x` into `l` before the first element it must strictly precede
(`cmp x y < 0`); later elements comparing equal stay behind earlier ones. -/
def insSorted (cmp : α → α → Int) (x : α) : List α → List α
  | [] => [x]
  | y :: ys => if cmp x y < 0 then x :: y :: ys else y :: insSorted cmp x ys

/-- JS `Array.prototype.sort(cmp)`: a stable sort by the comparator
(ES2019 requires stability), modelled as stable insertion sort. -/
def jsSortStable (cmp : α → α → Int) (l : List α) : List α :=
  l.foldl (fun acc x => insSorted cmp x acc) []

/-- Model of `path.resolve(WORKSPACE_PATH, r.path)` for the relative,
already-normalized catalog paths: join with a separator. -/
def resolveStr (w p : String) : String :=
  w ++ "/" ++ p

/-- `searchFileIndex(query, limit)` from `file-index/search.js`, with the
module state made explicit: `enable` is `ENABLE_FILE_INDEXING`, `cat` the
file-index `Map`'s values in insertion order, `w` is `WORKSPACE_PATH`. -/
def searchFileIndex (enable : Bool) (cat : List FileInfo) (w : String)
    (query : String) (limit : Nat) : List String :=
  if enable = false || cat.isEmpty then []
  else
    let queryLower := jsToLower query
    let results := (cat.map (fun info => (info, scoreEntry queryLower info))).filter
      (fun r => r.2 > 0)
    let sorted := jsSortStable searchCmp results
    (sorted.take limit).map (fun r => resolveStr w r.1.path)

/-! ### Membership through the stable sort -/

theorem mem_insSorted {cmp : α → α → Int} {x y : α} {l : List α} :
    x ∈ insSorted cmp y l ↔ x = y ∨ x ∈ l := by
  induction l with
  | nil => simp [insSorted]
  | cons z zs ih =>
    by_cases h : cmp y z < 0
    · simp [insSorted, h]
    · simp only [insSorted, if_neg h, List.mem_cons, ih]
      tauto

theorem mem_jsSortStable_aux {cmp : α → α → Int} {x : α} :
    ∀ (l acc : List α),
      (x ∈ l.foldl (fun a e => insSorted cmp e a) acc ↔ x ∈ acc ∨ x ∈ l) := by
  intro l
  induction l with
  | nil => simp
  | cons y ys ih =>
    intro acc
    simp only [List.foldl_cons, ih, mem_insSorted, List.mem_cons]
    tauto

theorem mem_jsSortStable {cmp : α → α → Int} {x : α} {l : List α} :
    x ∈ jsSortStable cmp l ↔ x ∈ l := by
  unfold jsSortStable
  rw [mem_jsSortStable_aux]
  simp

theorem resolveStr_inj {w p q : String} (h : resolveStr w p = resolveStr w q) :
    p = q := by
  have hd : w.data ++ ("/".data ++ p.data) = w.data ++ ("/".data ++ q.data) := by
    have := congrArg String.data h
    simpa [resolveStr, String.data_append, List.append_assoc] using this
  have h2 := List.append_cancel_left (List.append_cancel_left hd)
  cases p; cases q
  exact congrArg String.mk h2

/-- The long-path entry for C10: its relative path has 160 characters and
contains the query `util`, so it lands in the path-contains tier with
score `500 + (100 - 160) = 440`. -/
def c10longEntry : FileInfo :=
  { path := String.mk ("util".data ++ List.replicate 156 'a')
    name := "x.js", size := 1, modified := 0
    priority := getFilePriority "x.js" ".js", extension := ".js" }

/-- The name-contains entry for C10: its path does not contain `util` but
its name does, scoring `400 + (50 - 9) = 441`. -/
def c10nameEntry : FileInfo :=
  { path := "zz", name := "myutil.js", size := 1, modified := 0
    priority := getFilePriority "myutil.js" ".js", extension := ".js" }

/-- The 600-character-path entry used by the C10 witness. -/
def c10bigEntry : FileInfo :=
  { path := String.mk ("q".data ++ List.replicate 599 'a')
    name := "b.js", size := 1, modified := 0
    priority := getFilePriority "b.js" ".js", extension := ".js" }

set_option maxRecDepth 100000 in
/-- C10: (i) an entry in the path-contains tier scores
`500 + (100 - path.length)` and only strictly positive scores are kept,
so an entry whose path contains the query but has 600 or more characters
is excluded from the results entirely; (ii) a path-contains entry with a
path longer than 150 characters can rank below a name-contains entry
(score tiers overlap for long paths). -/
theorem searchFileIndex_longPath_excluded :
    (∀ (enable : Bool) (cat : List FileInfo) (w q : String) (lim : Nat)
        (e : FileInfo),
      e ∈ cat →
      (∀ e' ∈ cat, e'.path = e.path → e' = e) →
      jsToLower e.path ≠ jsToLower q →
      jsToLower e.name ≠ jsToLower q →
      includesStr (jsToLower e.path) (jsToLower q) = true →
      600 ≤ e.path.length →
      resolveStr w e.path ∉ searchFileIndex enable cat w q lim)
    ∧ searchFileIndex true [c10longEntry, c10nameEntry] "/ws" "util" 10
        = [resolveStr "/ws" c10nameEntry.path, resolveStr "/ws" c10longEntry.path]
    ∧ 150 < c10longEntry.path.length := by
  refine ⟨?_, by decide, by decide⟩
  intro enable cat w q lim e hmem huniq hp hn hinc hlen hcontra
  unfold searchFileIndex at hcontra
  by_cases hguard : enable = false || cat.isEmpty
  · rw [if_pos hguard] at hcontra
    exact absurd hcontra (List.not_mem_nil _)
  · rw [if_neg hguard] at hcontra
    simp only [List.mem_map] at hcontra
    obtain ⟨r, hr, hreq⟩ := hcontra
    have hr' : r ∈ jsSortStable searchCmp
        ((cat.map (fun info => (info, scoreEntry (jsToLower q) info))).filter
          (fun r => r.2 > 0)) := List.mem_of_mem_take hr
    rw [mem_jsSortStable] at hr'
    rw [List.mem_filter] at hr'
    obtain ⟨hrmap, hrpos⟩ := hr'
    rw [List.mem_map] at hrmap
    obtain ⟨i, hi, hieq⟩ := hrmap
    have hpath : i.path = e.path := by
      have : r.1 = i := by rw [← hieq]
      rw [this] at hreq
      exact resolveStr_inj hreq
    have hie : i = e := huniq i hi hpath
    subst hie
    have hscore : r.2 = scoreEntry (jsToLower q) i := by rw [← hieq]
    rw [hscore] at hrpos
    unfold scoreEntry at hrpos
    rw [if_neg hp, if_neg hn, if_pos hinc] at hrpos
    simp only [decide_eq_true_eq] at hrpos
    omega

set_option maxRecDepth 400000 in
/-- C10 witness: the exclusion applied to a concrete catalog holding one
600-character path-contains entry — the entry's resolved path is absent
from the results. -/
theorem searchFileIndex_longPath_excluded_witness :
    resolveStr "/ws" c10bigEntry.path ∉
      searchFileIndex true [c10bigEntry] "/ws" "q" 10 :=
  searchFileIndex_longPath_excluded.1 true [c10bigEntry] "/ws" "q" 10 c10bigEntry
    (by decide) (by decide) (by decide) (by decide) (by decide) (by decide)

/-- The `src/app.js` entry of the C8 scenario. -/
def c8short : FileInfo :=
  { path := "src/app.js", name := "app.js", size := 10, modified := 0
    priority := getFilePriority "src/app.js" ".js", extension := ".js" }

/-- The `src/deep/nested/app.js` entry of the C8 scenario. -/
def c8nested : FileInfo :=
  { path := "src/deep/nested/app.js", name := "app.js", size := 10, modified := 0
    priority := getFilePriority "src/deep/nested/app.js" ".js", extension := ".js" }

set_option maxRecDepth 40000 in
/-- C8 counterexample: when the catalog iterates the nested entry first,
querying `app.js` returns the *longer* path first — both names equal the
query exactly, both score 900, every tiebreaker ties, and the stable sort
keeps catalog order; the shorter path is not ranked first. -/
theorem searchFileIndex_app_js_catalog_order :
    searchFileIndex true [c8nested, c8short] "/ws" "app.js" 10
      = ["/ws/src/deep/nested/app.js", "/ws/src/app.js"] := by
  decide

set_option maxRecDepth 40000 in
/-- C8 (amended): both entries fall in the exact-filename tier with score
900 (neither is an exact path match, both file names equal the query), the
priority and name tiebreakers also tie, and so the results come back in
catalog insertion order — `src/app.js` first exactly when it was inserted
first, not because its path is shorter. -/
theorem searchFileIndex_app_js_tie :
    scoreEntry (jsToLower "app.js") c8short = 900
    ∧ scoreEntry (jsToLower "app.js") c8nested = 900
    ∧ searchFileIndex true [c8short, c8nested] "/ws" "app.js" 10
        = ["/ws/src/app.js", "/ws/src/deep/nested/app.js"]
    ∧ searchFileIndex true [c8nested, c8short] "/ws" "app.js" 10
        = ["/ws/src/deep/nested/app.js", "/ws/src/app.js"] := by
  refine ⟨by decide, by decide, by decide, by decide⟩

/-! ## `server/file-index/index.js` — `buildFileIndex`

`buildFileIndex` runs `fileIndex.clear()` and then, for each collected
file, `await fs.stat(...)` followed by a synchronous `fileIndex.set(...)`.
The runtime is single-threaded but every `await` is a yield point: a
reader calling `getFileIndex()` / `searchFileIndex` can run between any
two loop iterations and sees the one shared `Map`.  We model the rebuild
by the sequence of catalog states at those yield points: the old catalog
(observable while `collectFilesFiltered` is awaited, before `clear()`),
then the empty catalog, then each partially refilled catalog. -/

/-- The data the traversal and `fs.stat` deliver for one collected file:
`relativePath` is `path.relative(WORKSPACE_PATH, filePath)`, `name` the
basename, `extension` the lower-cased extname; `statOk = false` models a
`fs.stat` failure (the entry is skipped with a debug log). -/
structure RawFile where
  relativePath : String
  name : String
  extension : String
  size : Nat
  modified : Int
  statOk : Bool
deriving DecidableEq, Repr

/-- The shared `fileIndex` `Map`, as its key/value pairs in insertion
order. -/
abbrev Catalog := List (String × FileInfo)

/-- JS `Map.prototype.set`: replace in place when the key exists (keeping
its position), otherwise append. -/
def mapSet (m : Catalog) (k : String) (v : FileInfo) : Catalog :=
  if m.any (fun p => p.1 = k) then
    m.map (fun p => if p.1 = k then (k, v) else p)
  else m ++ [(k, v)]

/-- The value stored by `fileIndex.set` for one file
(`{path, name, size, modified, priority, extension}`; `getFilePriority`
only inspects the basename and extension, which `RawFile` carries). -/
def mkIndexEntry (f : RawFile) : FileInfo :=
  { path := f.relativePath, name := f.name, size := f.size
    modified := f.modified
    priority := getFilePriority f.name f.extension
    extension := f.extension }

/-- One iteration of the `buildFileIndex` loop: a failed `stat` or an
oversized file is skipped, otherwise the entry is set. -/
def buildStep (maxSize : Nat) (m : Catalog) (f : RawFile) : Catalog :=
  if f.statOk = false then m
  else if f.size > maxSize then m
  else mapSet m f.relativePath (mkIndexEntry f)

/-- The catalog after the whole rebuild. -/
def finalCatalog (files : List RawFile) (maxSize : Nat) : Catalog :=
  files.foldl (buildStep maxSize) []

/-- All catalog states observable at `await` boundaries during one
`buildFileIndex` run that started from catalog `old`. -/
def buildStates (old : Catalog) (files : List RawFile) (maxSize : Nat) :
    List Catalog :=
  old :: files.scanl (buildStep maxSize) []

theorem mapSet_fresh {m : Catalog} {k : String} {v : FileInfo}
    (h : ∀ p ∈ m, p.1 ≠ k) : mapSet m k v = m ++ [(k, v)] := by
  have h' : m.any (fun p => p.1 = k) = false := by
    rw [List.any_eq_false]
    intro p hp
    simp only [decide_eq_true_eq]
    exact h p hp
  unfold mapSet
  rw [h']
  simp

theorem buildStep_extends (maxSize : Nat) {m : Catalog} {f : RawFile}
    (h : ∀ p ∈ m, p.1 ≠ f.relativePath) :
    buildStep maxSize m f = m ∨
    buildStep maxSize m f = m ++ [(f.relativePath, mkIndexEntry f)] := by
  unfold buildStep
  by_cases h1 : f.statOk = false
  · left; rw [if_pos h1]
  · rw [if_neg h1]
    by_cases h2 : f.size > maxSize
    · left; rw [if_pos h2]
    · right; rw [if_neg h2]; exact mapSet_fresh h

theorem mem_buildStep {maxSize : Nat} {m : Catalog} {f : RawFile} {p : String × FileInfo}
    (hfresh : ∀ q ∈ m, q.1 ≠ f.relativePath)
    (hp : p ∈ buildStep maxSize m f) :
    p ∈ m ∨ p.1 = f.relativePath := by
  rcases buildStep_extends maxSize hfresh with h | h
  · rw [h] at hp; exact Or.inl hp
  · rw [h, List.mem_append] at hp
    rcases hp with hp | hp
    · exact Or.inl hp
    · right
      simp only [List.mem_singleton] at hp
      rw [hp]

theorem scanl_prefix_aux (maxSize : Nat) :
    ∀ (files : List RawFile) (m : Catalog),
      (∀ f ∈ files, ∀ p ∈ m, p.1 ≠ f.relativePath) →
      (files.map (fun f => f.relativePath)).Nodup →
      ∀ s ∈ files.scanl (buildStep maxSize) m,
        s <+: files.foldl (buildStep maxSize) m := by
  intro files
  induction files with
  | nil =>
    intro m _ _ s hs
    simp only [List.scanl_nil, List.mem_singleton] at hs
    simp [hs]
  | cons f fs ih =>
    intro m hfresh hnd s hs
    have hfreshf : ∀ p ∈ m, p.1 ≠ f.relativePath :=
      hfresh f (List.mem_cons_self f fs)
    have hfresh' : ∀ g ∈ fs, ∀ p ∈ buildStep maxSize m f, p.1 ≠ g.relativePath := by
      intro g hg p hp
      rcases mem_buildStep hfreshf hp with hpm | hpk
      · exact hfresh g (List.mem_cons_of_mem f hg) p hpm
      · rw [hpk]
        simp only [List.map_cons, List.nodup_cons] at hnd
        intro hcontr
        exact hnd.1 (hcontr ▸ List.mem_map_of_mem (fun f => f.relativePath) hg)
    have hnd' : (fs.map (fun f => f.relativePath)).Nodup := by
      simp only [List.map_cons, List.nodup_cons] at hnd
      exact hnd.2
    rw [List.scanl_cons] at hs
    rw [List.foldl_cons]
    rcases List.mem_cons.mp hs with hs | hs
    · -- s = m: m extends into the step, which is a prefix of the final fold
      have h1 : m <+: buildStep maxSize m f := by
        rcases buildStep_extends maxSize hfreshf with h | h
        · rw [h]
        · rw [h]; exact ⟨[(f.relativePath, mkIndexEntry f)], rfl⟩
      have h2 : buildStep maxSize m f <+: fs.foldl (buildStep maxSize) (buildStep maxSize m f) := by
        apply ih (buildStep maxSize m f) hfresh' hnd'
        cases fs with
        | nil => simp
        | cons g gs => simp [List.scanl_cons]
      rw [hs]
      exact h1.trans h2
    · exact ih (buildStep maxSize m f) hfresh' hnd' s hs

/-- C7 (amended): `buildFileIndex` replaces the catalog by clearing the
shared `Map` and refilling it entry by entry, with an `await` between
insertions; a reader during a rebuild observes either the pre-rebuild
catalog or one of the clear-then-refill states, each of which is a prefix
of the complete new catalog (assuming the walk yields distinct relative
paths) — the empty and partially-filled catalogs among them are really
observable, so the strategy is clear-then-refill, not an atomic
reference swap. -/
theorem buildStates_prefix (old : Catalog) (files : List RawFile) (maxSize : Nat)
    (hnd : (files.map (fun f => f.relativePath)).Nodup) :
    ∀ s ∈ buildStates old files maxSize,
      s = old ∨ s <+: finalCatalog files maxSize := by
  intro s hs
  unfold buildStates at hs
  rcases List.mem_cons.mp hs with hs | hs
  · exact Or.inl hs
  · right
    exact scanl_prefix_aux maxSize files [] (fun _ _ p hp => absurd hp (List.not_mem_nil p)) hnd s hs

/-- The pre-rebuild catalog used in the C7 scenario. -/
def c7oldInfo : FileInfo :=
  { path := "old.txt", name := "old.txt", size := 3, modified := 0
    priority := 4, extension := ".txt" }

/-- The old catalog of the C7 scenario. -/
def c7old : Catalog := [("old.txt", c7oldInfo)]

/-- First file of the C7 rebuild. -/
def c7f1 : RawFile :=
  { relativePath := "a.js", name := "a.js", extension := ".js", size := 5
    modified := 1, statOk := true }

/-- Second file of the C7 rebuild. -/
def c7f2 : RawFile :=
  { relativePath := "b.js", name := "b.js", extension := ".js", size := 6
    modified := 1, statOk := true }

/-- C7 counterexample: during a rebuild that replaces a one-entry catalog
by a two-entry one, the empty catalog (right after `fileIndex.clear()`)
is observable at a yield point, and it is neither the complete old
snapshot nor the complete new one. -/
theorem buildFileIndex_partial_state_observable :
    ([] : Catalog) ∈ buildStates c7old [c7f1, c7f2] 100
    ∧ ([] : Catalog) ≠ c7old
    ∧ ([] : Catalog) ≠ finalCatalog [c7f1, c7f2] 100 := by
  refine ⟨by decide, by decide, by decide⟩

/-- C7 witness: the amended statement applied to the concrete rebuild —
the empty observable state is a prefix of the complete new catalog. -/
theorem buildStates_prefix_witness :
    ([] : Catalog) = c7old ∨ ([] : Catalog) <+: finalCatalog [c7f1, c7f2] 100 :=
  buildStates_prefix c7old [c7f1, c7f2] 100 (by decide) [] (by decide)

/-! ## `utils/path.js` — `validatePath`

Absolute POSIX paths are modelled as their segment lists (`"/a/b"` is
`["a", "b"]`, the root is `[]`).  `fs.realpath` is an oracle mapping a
path to its symlink-free form, `ENOENT`, or another error. -/

/-- Outcome of an `fs.realpath` call. -/
inductive RpResult
  | ok (p : List String)
  | enoent
  | otherErr
deriving DecidableEq, Repr

/-- An absolute path as its list of segments. -/
abbrev AbsPath := List String

/-- POSIX `path.isAbsolute` on the raw string. -/
def isAbsolutePath (p : String) : Bool :=
  match p.data with
  | '/' :: _ => true
  | _ => false

/-- The raw segments of a path string: split on `/`, dropping empties. -/
def rawSegs (p : String) : List String :=
  ((splitSlash p.data).map String.mk).filter (fun s => s ≠ "")

/-- One step of the `.`/`..` normalization `path.resolve` performs;
`..` at the root stays at the root. -/
def normStep (acc : List String) (s : String) : List String :=
  if s = "." then acc
  else if s = ".." then acc.dropLast
  else acc ++ [s]

/-- Lexical normalization of a segment sequence (as `path.resolve` /
`path.normalize` do for absolute paths). -/
def normSegs (l : List String) : List String :=
  l.foldl normStep []

/-- `path.resolve(w, p)` for an absolute workspace string `w`: an
absolute `p` is normalized on its own, a relative one is joined to `w`. -/
def jsResolve (w p : String) : AbsPath :=
  if isAbsolutePath p then normSegs (rawSegs p)
  else normSegs (rawSegs w ++ rawSegs p)

/-- `path.relative(from, to)` for absolute normalized segment lists: pop
the common prefix, then one `..` per remaining `from` segment followed by
the remaining `to` segments. -/
def relSegs : AbsPath → AbsPath → List String
  | [], t => t
  | _ :: f, [] => ".." :: f.map (fun _ => "..")
  | a :: f, b :: t =>
    if a = b then relSegs f t
    else ".." :: f.map (fun _ => "..") ++ b :: t

/-- The source's escape test on the joined relative path:
`relativePath.startsWith('..')` — true iff the first segment starts with
`..` (`path.isAbsolute(relativePath)` is always false for `path.relative`
output on POSIX, so it is not modelled separately). -/
def relStartsWithDotDot (rel : List String) : Bool :=
  match rel with
  | [] => false
  | s :: _ => "..".data.isPrefixOf s.data

/-- `expandHome(filepath)` from `path.js`: `~` or a leading `~/` expands
to the home directory (`path.join(os.homedir(), filepath.slice(1))`,
which for these shapes is string concatenation). -/
def expandHome (home p : String) : String :=
  if p = "~" || "~/".data.isPrefixOf p.data then
    home ++ String.mk (p.data.drop 1)
  else p

/-- `path.dirname` on a normalized absolute segment list. -/
def dirnameSegs (p : AbsPath) : AbsPath := p.dropLast

/-- The last segment of a path (empty for the root). -/
def lastSeg (p : AbsPath) : List String := p.drop (p.length - 1)

/-- The distinct failures of `validatePath`, by throw site. -/
inductive PathErr
  | outsideWorkspace
  | symlinkOutside
  | accessDeniedParent
  | realpathFailed
  | parentMissing
  | otherError
deriving DecidableEq, Repr

/-- The `try` block of the new-file (`ENOENT`) branch of `validatePath`,
with the outcome of `fs.realpath(parentDir)` as the scrutinee: resolve
the parent's real path and check its containment; the access-denied
throw happens *inside* this block. -/
def parentTryBlock (nw absolute : AbsPath) : RpResult → Except PathErr AbsPath
  | .ok realParent =>
    if relStartsWithDotDot (relSegs nw realParent) then .error .accessDeniedParent
    else .ok absolute
  | _ => .error .realpathFailed

/-- The `catch` around the parent-directory block: *any* error thrown
inside the `try` — including the access-denied throw for a parent that
resolves outside the workspace — is swallowed and reported as
`Parent directory does not exist`. -/
def swallowToParentMissing : Except PathErr AbsPath → Except PathErr AbsPath
  | .ok v => .ok v
  | .error _ => .error .parentMissing

/-- The `try { const realPath = await fs.realpath(absolute); ... }` part
of `validatePath`, with the outcome of the `realpath` call as the
scrutinee: success re-checks containment of the real path; `ENOENT` runs
the parent-directory block under its swallowing `catch`; other errors
are rethrown. -/
def afterRealpath (rp : AbsPath → RpResult) (nw absolute : AbsPath) :
    RpResult → Except PathErr AbsPath
  | .ok realPath =>
    if relStartsWithDotDot (relSegs nw realPath) then .error .symlinkOutside
    else .ok realPath
  | .enoent =>
    swallowToParentMissing
      (parentTryBlock nw absolute (rp (dirnameSegs absolute)))
  | .otherErr => .error .otherError

/-- `validatePath(requestedPath, workspacePath)` from `path.js`. -/
def validatePath (rp : AbsPath → RpResult) (home : String)
    (requestedPath workspacePath : String) : Except PathErr AbsPath :=
  let expandedPath := expandHome home requestedPath
  let absolute := jsResolve workspacePath expandedPath
  let nw := normSegs (rawSegs workspacePath)
  if relStartsWithDotDot (relSegs nw absolute) then .error .outsideWorkspace
  else afterRealpath rp nw absolute (rp absolute)

/-- Completing the symlink resolution of a path whose own realpath call
did not succeed: resolve the parent and re-attach the final segment. -/
def resolveViewAux (p : AbsPath) : RpResult → AbsPath
  | .ok rparent => rparent ++ lastSeg p
  | _ => p

/-- The symlink-resolved form of a returned path: its real path when it
exists, otherwise its parent's real path with the final segment back on
(the shape `validatePath` returns for new files). -/
def resolveView (rp : AbsPath → RpResult) (p : AbsPath) : AbsPath :=
  match rp p with
  | .ok r => r
  | _ => resolveViewAux p (rp (dirnameSegs p))

theorem relStartsWithDotDot_dotdot (rest : List String) :
    relStartsWithDotDot (".." :: rest) = true := rfl

theorem notDotDot_prefix :
    ∀ (w p : AbsPath), relStartsWithDotDot (relSegs w p) = false → w <+: p := by
  intro w
  induction w with
  | nil => intro p _; exact List.nil_prefix
  | cons a f ih =>
    intro p h
    cases p with
    | nil =>
      exfalso
      have hr : relSegs (a :: f) [] = ".." :: f.map (fun _ => "..") := rfl
      rw [hr, relStartsWithDotDot_dotdot] at h
      exact Bool.noConfusion h
    | cons b t =>
      by_cases hab : a = b
      · subst hab
        have hr : relSegs (a :: f) (a :: t) = relSegs f t := by
          simp [relSegs]
        rw [hr] at h
        obtain ⟨k, hk⟩ := ih t h
        exact ⟨k, by rw [List.cons_append, hk]⟩
      · exfalso
        have hr : relStartsWithDotDot (relSegs (a :: f) (b :: t)) = true := by
          simp only [relSegs, if_neg hab]
          rfl
        rw [hr] at h
        exact Bool.noConfusion h

/-- C2: whenever `validatePath` succeeds, the workspace root (as the code
normalizes it) is a directory-prefix of the symlink-resolved form of the
returned path — for existing targets the result is itself the real path
and was containment-checked; for new files the parent's real path was
checked and the final segment only descends.  The realpath oracle is
assumed idempotent (the real path of a real path is itself). -/
theorem validatePath_contained (rp : AbsPath → RpResult) (home : String)
    (requestedPath workspacePath : String)
    (hidem : ∀ p q, rp p = .ok q → rp q = .ok q)
    (result : AbsPath)
    (hok : validatePath rp home requestedPath workspacePath = .ok result) :
    normSegs (rawSegs workspacePath) <+: resolveView rp result := by
  unfold validatePath at hok
  set nw := normSegs (rawSegs workspacePath) with hnw
  set absolute := jsResolve workspacePath (expandHome home requestedPath) with habs
  by_cases h1 : relStartsWithDotDot (relSegs nw absolute) = true
  · rw [if_pos h1] at hok
    exact absurd hok (by simp)
  · rw [if_neg h1] at hok
    cases hrp : rp absolute with
    | ok realPath =>
      rw [hrp] at hok
      simp only [afterRealpath] at hok
      by_cases h2 : relStartsWithDotDot (relSegs nw realPath) = true
      · rw [if_pos h2] at hok
        exact absurd hok (by simp)
      · rw [if_neg h2] at hok
        simp only [Except.ok.injEq] at hok
        have hview : resolveView rp result = result := by
          unfold resolveView
          rw [hidem absolute result (by rw [hrp, hok])]
        rw [hview, ← hok]
        exact notDotDot_prefix nw realPath (Bool.not_eq_true _ ▸ h2)
    | enoent =>
      rw [hrp] at hok
      simp only [afterRealpath] at hok
      cases hpt : parentTryBlock nw absolute (rp (dirnameSegs absolute)) with
      | ok v =>
        rw [hpt] at hok
        simp only [swallowToParentMissing, Except.ok.injEq] at hok
        cases hrpp : rp (dirnameSegs absolute) with
        | ok realParent =>
          rw [hrpp] at hpt
          simp only [parentTryBlock] at hpt
          by_cases h3 : relStartsWithDotDot (relSegs nw realParent) = true
          · rw [if_pos h3] at hpt
            exact absurd hpt (by simp)
          · rw [if_neg h3] at hpt
            simp only [Except.ok.injEq] at hpt
            -- hpt : absolute = v, hok : v = result
            have hres : result = absolute := by rw [← hok, ← hpt]
            have hview : resolveView rp result = realParent ++ lastSeg result := by
              unfold resolveView
              rw [hres, hrp, hrpp]
              rfl
            rw [hview]
            have hpre : nw <+: realParent := notDotDot_prefix nw realParent (by
              cases hx : relStartsWithDotDot (relSegs nw realParent) with
              | false => rfl
              | true => exact absurd hx h3)
            exact hpre.trans ⟨lastSeg result, rfl⟩
        | enoent =>
          rw [hrpp] at hpt
          simp only [parentTryBlock] at hpt
          exact absurd hpt (by simp)
        | otherErr =>
          rw [hrpp] at hpt
          simp only [parentTryBlock] at hpt
          exact absurd hpt (by simp)
      | error e =>
        rw [hpt] at hok
        simp only [swallowToParentMissing] at hok
        exact absurd hok (by simp)
    | otherErr =>
      rw [hrp] at hok
      simp only [afterRealpath] at hok
      exact absurd hok (by simp)

/-- C2 witness: a symlink-free filesystem (realpath is the identity),
workspace `/ws`, request `a.txt` — validation succeeds and the workspace
is a prefix of the resolved result. -/
theorem validatePath_contained_witness :
    normSegs (rawSegs "/ws") <+: resolveView (fun p => RpResult.ok p) ["ws", "a.txt"] :=
  validatePath_contained (fun p => RpResult.ok p) "/home/u" "a.txt" "/ws"
    (fun _ _ h => by cases h; rfl) ["ws", "a.txt"] (by rfl)

/-- The realpath oracle of the C6 scenario: `/ws` is real, `/ws/link` is
a symlink to `/outside` (a real directory outside the workspace), and
`/ws/link/new.txt` does not exist. -/
def c6rp : AbsPath → RpResult := fun p =>
  if p = ["ws"] then .ok ["ws"]
  else if p = ["ws", "link"] then .ok ["outside"]
  else if p = ["outside"] then .ok ["outside"]
  else .enoent

/-- C6: for a nonexistent target whose parent resolves outside the
workspace, the inner parent check does throw access-denied, but the
surrounding `catch` swallows it and `validatePath` fails with the
`Parent directory does not exist` error (`ParentMissing`), not
`AccessDenied` as the claim states. -/
theorem validatePath_parent_outside_reports_parentMissing :
    validatePath c6rp "/home/u" "link/new.txt" "/ws" = .error PathErr.parentMissing
    ∧ parentTryBlock ["ws"] ["ws", "link", "new.txt"] (c6rp ["ws", "link"])
        = .error PathErr.accessDeniedParent := by
  exact ⟨by rfl, by rfl⟩

/-! ## `utils/edit.js` — `editFileSafely`

The file content and the outcomes of the filesystem calls after the
initial read are supplied by an oracle (`EditOracle`): what actually
landed on disk after the rename (the observed corruption mode is a
zero-byte file), whether the verification read succeeds, and whether each
`writeFileAtomically` restoration attempt succeeds.  The external `diff`
package's `createTwoFilesPatch` is a function parameter.  The two `throw`
statements of the verification block sit *inside* the `try` blocks whose
`catch` handlers wrap them, which the embedding mirrors exactly. -/

/-- A JS `Error`, identified by its message. -/
structure JsError where
  message : String
deriving DecidableEq, Repr

/-- Outcomes of the filesystem calls `editFileSafely` performs after its
initial read. -/
structure EditOracle where
  writeOk : Bool
  writeErrMsg : String
  diskAfterWrite : List Char
  readOk : Bool
  readErrMsg : String
  restore1Ok : Bool
  restore1ErrMsg : String
  restore2Ok : Bool
  restore2ErrMsg : String
deriving Repr

/-- The message of the corruption throw
(`"❌ File corruption detected - restored from backup"`). -/
def corruptionMsg : String := "❌ File corruption detected - restored from backup"

/-- The message of the throw after a successful in-catch restore. -/
def verifyFailedMsg (m : String) : String :=
  "❌ File verification failed - restored from backup: " ++ m

/-- The message of the CRITICAL throw; note it interpolates only
`verifyError.message`, never the restoration error. -/
def criticalMsg (m : String) : String :=
  "❌ CRITICAL: File write failed AND backup restoration failed! Manual recovery needed: " ++ m

/-- The `Invalid line_start` error message of `editFileSafely`. -/
def invalidStartMsg (lineStart : Int) (total : Nat) (base : String) : String :=
  "❌ Invalid line_start " ++ toString lineStart ++ " - file only has "
    ++ toString total
    ++ " lines\n\n🔧 TROUBLESHOOTING:\n1. Use 'read_file " ++ base
    ++ "' to see current content\n2. Count lines carefully (files start at line 1)\n3. Use 'preview_edit' to test parameters safely\n💡 The file currently has lines 1-"
    ++ toString total

/-- The `Invalid line_end` error message of `editFileSafely`. -/
def invalidEndMsg (actualEnd lineStart : Int) (total : Nat) (base : String) : String :=
  "❌ Invalid line_end " ++ toString actualEnd ++ " - must be between "
    ++ toString lineStart ++ " and " ++ toString total
    ++ "\n\n🔧 TROUBLESHOOTING:\n1. Use 'read_file " ++ base
    ++ "' to see current content\n2. Ensure line_end >= line_start\n3. Use 'preview_edit' to test parameters safely"

/-- The success summary of `editFileSafely`. -/
def editSummary (base : String) (linesReplaced lineStart actualEnd : Int)
    (linesAdded finalCount oldCount : Nat) (lineEnding : List Char) : String :=
  "✅ Successfully edited " ++ base ++ ":\n• Replaced " ++ toString linesReplaced
    ++ " lines (lines " ++ toString lineStart ++ "-" ++ toString actualEnd
    ++ ")\n• Added " ++ toString linesAdded ++ " new lines\n• File now has "
    ++ toString finalCount ++ " lines (was " ++ toString oldCount
    ++ ")\n• Line ending style: "
    ++ (if lineEnding = ['\r', '\n'] then "CRLF"
        else if lineEnding = ['\r'] then "CR" else "LF")
    ++ "\n\n🔍 VERIFICATION RECOMMENDED:\nUse 'read_file " ++ base
    ++ "' to confirm edit looks correct\nUse 'git_diff' to see changes in context"

/-- `createUnifiedDiff(original, new, path)` from `diff.js`: normalize
both sides' line endings and hand them to the external
`createTwoFilesPatch` (a parameter here). -/
def createUnifiedDiff (patch : List Char → List Char → List Char)
    (originalContent newContent : List Char) : List Char :=
  patch (normalizeLineEndings originalContent) (normalizeLineEndings newContent)

/-- The body of the verification `try`: read the file back (its content
is what is really on disk, `diskAfterWrite`); on an empty read with
non-empty intended content, restore (`writeFileAtomically`, restore #1)
and throw the corruption error — a throw that is still inside this
`try`.  Returns the disk content afterwards and the thrown error, if
any. -/
def verifyTryBody (originalContent newFileContent : List Char) (o : EditOracle) :
    List Char × Option JsError :=
  if o.readOk = false then (o.diskAfterWrite, some ⟨o.readErrMsg⟩)
  else if o.diskAfterWrite.length = 0 ∧ newFileContent.length > 0 then
    if o.restore1Ok then (originalContent, some ⟨corruptionMsg⟩)
    else (o.diskAfterWrite, some ⟨o.restore1ErrMsg⟩)
  else (o.diskAfterWrite, none)

/-- The `try` inside the `catch (verifyError)`: restore again
(restore #2) and throw the verification-failed message.  Both of its
paths throw (the explicit throw follows a successful restore, a failed
restore throws on its own), so the enclosing `catch (restoreError)`
always fires. -/
def restoreTryResult (originalContent disk : List Char) (verifyError : JsError)
    (o : EditOracle) : List Char × JsError :=
  if o.restore2Ok then (originalContent, ⟨verifyFailedMsg verifyError.message⟩)
  else (disk, ⟨o.restore2ErrMsg⟩)

/-- The whole `catch (verifyError)` block: run the restore `try`; the
error it throws is caught by `catch (restoreError)`, which throws the
CRITICAL error built from the verification message only. -/
def verifyCatchBlock (originalContent disk : List Char) (verifyError : JsError)
    (o : EditOracle) : List Char × JsError :=
  let r := restoreTryResult originalContent disk verifyError o
  (r.1, ⟨criticalMsg verifyError.message⟩)

/-- Result of a call to `editFileSafely`: the file content on disk after
the call and either the thrown error or the returned `{diff, summary}`. -/
structure EditResult where
  disk : List Char
  outcome : Except JsError (List Char × String)
deriving Repr

/-- Dispatch on the outcome of the verification block (separated out so
the two result shapes stay in one-to-one correspondence with the source's
control flow). -/
def finishEdit (fileBase : String) (originalContent : List Char)
    (lineStart actualLineEnd : Int) (lines newLines editedLines : List (List Char))
    (lineEnding diff : List Char) (o : EditOracle) :
    List Char × Option JsError → EditResult
  | (disk1, some verifyError) =>
    let r := verifyCatchBlock originalContent disk1 verifyError o
    { disk := r.1, outcome := .error r.2 }
  | (disk1, none) =>
    { disk := disk1
      outcome := .ok (formatDiff diff,
        editSummary fileBase (actualLineEnd - lineStart + 1) lineStart actualLineEnd
          newLines.length editedLines.length lines.length lineEnding) }

/-- `editFileSafely(filePath, lineStart, lineEnd, newContent)` from
`utils/edit.js`; `fileBase` stands for `path.basename(filePath)` and
`patch` for the external diff library. -/
def editFileSafely (patch : List Char → List Char → List Char) (fileBase : String)
    (originalContent : List Char) (lineStart : Int) (lineEnd : Option Int)
    (newContent : List Char) (o : EditOracle) : EditResult :=
  let lines := splitRN originalContent
  let newLines := splitNL newContent
  if lineStart < 1 ∨ lineStart > (lines.length : Int) then
    { disk := originalContent
      outcome := .error ⟨invalidStartMsg lineStart lines.length fileBase⟩ }
  else
    -- JS `lineEnd || lineStart`: `undefined` and the falsy `0` both default
    let actualLineEnd :=
      match lineEnd with
      | none => lineStart
      | some e => if e = 0 then lineStart else e
    if actualLineEnd < lineStart ∨ actualLineEnd > (lines.length : Int) then
      { disk := originalContent
        outcome := .error ⟨invalidEndMsg actualLineEnd lineStart lines.length fileBase⟩ }
    else
      let lineEnding := detectLineEnding originalContent
      let editedLines :=
        lines.take (lineStart - 1).toNat ++ newLines
          ++ lines.drop ((lineStart - 1).toNat + (actualLineEnd - lineStart + 1).toNat)
      let newFileContent := joinSep lineEnding editedLines
      let diff := createUnifiedDiff patch originalContent newFileContent
      if o.writeOk = false then
        -- temp write/rename failed: temp file cleaned up, error rethrown
        { disk := originalContent, outcome := .error ⟨o.writeErrMsg⟩ }
      else
        finishEdit fileBase originalContent lineStart actualLineEnd
          lines newLines editedLines lineEnding diff o
          (verifyTryBody originalContent newFileContent o)

/-- The C1 scenario's oracle: the rename "succeeds" but leaves a
zero-byte file on disk; the verification read succeeds and returns it;
both restoration writes succeed. -/
def c1oracle : EditOracle :=
  { writeOk := true, writeErrMsg := ""
    diskAfterWrite := []
    readOk := true, readErrMsg := ""
    restore1Ok := true, restore1ErrMsg := ""
    restore2Ok := true, restore2ErrMsg := "" }

/-- C1: on a zero-byte verification read after an intended non-empty
write, the file *is* restored to its exact pre-edit content — but the
surfaced error is the CRITICAL one (the corruption throw is caught by its
own `try`'s `catch`, whose rethrow is caught again by the restore
`catch`), not the handled `CorruptionDetected` failure the claim
describes. -/
theorem editFileSafely_corruption_restores_but_reports_critical :
    (editFileSafely (fun _ _ => []) "app.txt" ("a\nb\nc".data) 2 none
        ("B".data) c1oracle).disk = "a\nb\nc".data
    ∧ (editFileSafely (fun _ _ => []) "app.txt" ("a\nb\nc".data) 2 none
        ("B".data) c1oracle).outcome = .error ⟨criticalMsg corruptionMsg⟩
    ∧ criticalMsg corruptionMsg ≠ corruptionMsg
    ∧ criticalMsg corruptionMsg ≠ verifyFailedMsg corruptionMsg := by
  exact ⟨rfl, rfl, by decide, by decide⟩

/-- The C3 scenario's oracles: the verification read itself fails; in
`c3restoreOk` the catch-side restoration write succeeds, in
`c3restoreFail` it fails with `ENOSPC: disk full`. -/
def c3restoreOk : EditOracle :=
  { writeOk := true, writeErrMsg := ""
    diskAfterWrite := "a\nB\nc".data
    readOk := false, readErrMsg := "EIO: read failed"
    restore1Ok := true, restore1ErrMsg := ""
    restore2Ok := true, restore2ErrMsg := "" }

/-- Variant of the C3 oracle whose catch-side restore fails. -/
def c3restoreFail : EditOracle :=
  { writeOk := true, writeErrMsg := ""
    diskAfterWrite := "a\nB\nc".data
    readOk := false, readErrMsg := "EIO: read failed"
    restore1Ok := true, restore1ErrMsg := ""
    restore2Ok := false, restore2ErrMsg := "ENOSPC: disk full" }

/-- C3: the CRITICAL error is raised even when the restoration write
succeeds (first two conjuncts: the restore brought the file back to the
original, yet the outcome is the CRITICAL error), and when the restore
really does fail its message still contains only the verification
failure, never the restoration failure (last conjuncts). -/
theorem editFileSafely_critical_not_only_on_restore_failure :
    (editFileSafely (fun _ _ => []) "app.txt" ("a\nb\nc".data) 2 none
        ("B".data) c3restoreOk).disk = "a\nb\nc".data
    ∧ (editFileSafely (fun _ _ => []) "app.txt" ("a\nb\nc".data) 2 none
        ("B".data) c3restoreOk).outcome
        = .error ⟨criticalMsg "EIO: read failed"⟩
    ∧ (editFileSafely (fun _ _ => []) "app.txt" ("a\nb\nc".data) 2 none
        ("B".data) c3restoreFail).outcome
        = .error ⟨criticalMsg "EIO: read failed"⟩
    ∧ jsIncludes (criticalMsg "EIO: read failed").data ("ENOSPC: disk full".data)
        = false := by
  exact ⟨rfl, rfl, rfl, by decide⟩

/-! ## `utils/file-operations` — `applyFileEdits` -/

/-- One `{oldText, newText}` edit operation. -/
structure EditOp where
  oldText : List Char
  newText : List Char
deriving DecidableEq, Repr

/-- The `NoMatchFound` message
(`Could not find exact match for edit:\n${edit.oldText}` — note it echoes
the *un-normalized* `oldText`). -/
def noMatchMsg (old : List Char) : String :=
  "Could not find exact match for edit:\n" ++ String.mk old

/-- Whether the window of `oldLines.length` content lines starting at `i`
matches `oldLines` up to trimming (the loop bound keeps `i + j` in
range, so the default is never hit there). -/
def isBlockMatchAt (oldLines contentLines : List (List Char)) (i : Nat) : Bool :=
  (List.range oldLines.length).all
    (fun j => jsTrim (oldLines.getD j []) = jsTrim (contentLines.getD (i + j) []))

/-- The scan `for (let i = 0; i <= contentLines.length - oldLines.length; i++)`
returning the first matching window (the loop body does not run when
`oldLines` is longer than `contentLines`). -/
def findBlockMatch (oldLines contentLines : List (List Char)) : Option Nat :=
  (List.range (contentLines.length + 1 - oldLines.length)).find?
    (fun i => isBlockMatchAt oldLines contentLines i)

/-- The replacement lines with indentation adjusted: the first line takes
the matched block's leading indent; later lines get the block indent plus
the non-negative difference of the new and old leading-whitespace widths
when both are non-empty, and stay unchanged otherwise. -/
def adjustNewLines (originalIndent : List Char)
    (oldLines newLines : List (List Char)) : List (List Char) :=
  newLines.mapIdx (fun j line =>
    if j = 0 then originalIndent ++ jsTrimStart line
    else
      let oldIndent := leadingWhitespace (oldLines.getD j [])
      let newIndent := leadingWhitespace line
      if oldIndent ≠ [] ∧ newIndent ≠ [] then
        originalIndent
          ++ List.replicate ((newIndent.length : Int) - (oldIndent.length : Int)).toNat ' '
          ++ jsTrimStart line
      else line)

/-- One iteration of the `for (const edit of edits)` loop of
`applyFileEdits`: verbatim substring replacement first, then the
whitespace-tolerant block match, else the `NoMatchFound` throw. -/
def applyOneEdit (modifiedContent : List Char) (edit : EditOp) :
    Except JsError (List Char) :=
  let normalizedOld := normalizeLineEndings edit.oldText
  let normalizedNew := normalizeLineEndings edit.newText
  if jsIncludes modifiedContent normalizedOld then
    .ok (replaceFirst modifiedContent normalizedOld normalizedNew)
  else
    let oldLines := splitNL normalizedOld
    let contentLines := splitNL modifiedContent
    match findBlockMatch oldLines contentLines with
    | some i =>
      let originalIndent := leadingWhitespace (contentLines.getD i [])
      let newLines := adjustNewLines originalIndent oldLines (splitNL normalizedNew)
      .ok (joinSep ['\n']
        (contentLines.take i ++ newLines ++ contentLines.drop (i + oldLines.length)))
    | none => .error ⟨noMatchMsg edit.oldText⟩

/-- The whole edit loop, applied sequentially to the accumulating
buffer; the first failing edit aborts it. -/
def applyEditsLoop : List Char → List EditOp → Except JsError (List Char)
  | content, [] => .ok content
  | content, e :: es =>
    match applyOneEdit content e with
    | .ok c2 => applyEditsLoop c2 es
    | .error err => .error err

/-- Result of a call to `applyFileEdits`: the file content on disk after
the call and either the thrown error or the returned formatted diff. -/
structure ApplyResult where
  disk : List Char
  outcome : Except JsError (List Char)
deriving Repr

/-- The tail of `applyFileEdits` after the loop, on the loop's outcome:
on success restore the original line endings, diff, and (unless
`dryRun`) write atomically; on failure the file was never written. -/
def finishApply (patch : List Char → List Char → List Char) (disk : List Char)
    (dryRun : Bool) (originalLineEnding : List Char) :
    Except JsError (List Char) → ApplyResult
  | .error err => { disk := disk, outcome := .error err }
  | .ok modifiedContent =>
    let finalContent := joinSep originalLineEnding (splitNL modifiedContent)
    { disk := if dryRun then disk else finalContent
      outcome := .ok (formatDiff (createUnifiedDiff patch disk finalContent)) }

/-- `applyFileEdits(filePath, edits, dryRun)` from the file-operations
module; `disk` is the file's content, `patch` the external diff
library. -/
def applyFileEdits (patch : List Char → List Char → List Char)
    (disk : List Char) (edits : List EditOp) (dryRun : Bool) : ApplyResult :=
  finishApply patch disk dryRun (detectLineEnding disk)
    (applyEditsLoop (normalizeLineEndings disk) edits)

/-- C4: when a non-dry-run batch fails (any edit matched neither
verbatim nor block-wise, so the loop threw `NoMatchFound`), the file on
disk is left exactly as it was — the write only happens after every edit
has succeeded. -/
theorem applyFileEdits_failed_batch_leaves_file
    (patch : List Char → List Char → List Char) (disk : List Char)
    (edits : List EditOp) (err : JsError)
    (h : (applyFileEdits patch disk edits false).outcome = .error err) :
    (applyFileEdits patch disk edits false).disk = disk := by
  unfold applyFileEdits at h ⊢
  cases hloop : applyEditsLoop (normalizeLineEndings disk) edits with
  | error e => simp [finishApply]
  | ok c =>
    rw [hloop] at h
    simp [finishApply] at h

/-- C4 witness: a two-edit batch whose first edit matches (`a` → `x`)
and whose second (`zzz`) matches nothing fails and leaves the file
content `ab` untouched, even though edit #1 had been applied to the
in-memory buffer. -/
theorem applyFileEdits_failed_batch_leaves_file_witness :
    (applyFileEdits (fun _ _ => []) ("ab".data)
        [⟨"a".data, "x".data⟩, ⟨"zzz".data, "y".data⟩] false).disk = "ab".data :=
  applyFileEdits_failed_batch_leaves_file (fun _ _ => []) ("ab".data)
    [⟨"a".data, "x".data⟩, ⟨"zzz".data, "y".data⟩]
    ⟨noMatchMsg ("zzz".data)⟩ (by rfl)

/-- C5 counterexample: the two-space `oldText` occurs verbatim inside
the four-space line, so the substring branch fires and yields `  bar()`
(two spaces — the two left over from the line), not the `    bar()` the
claim states. -/
theorem applyFileEdits_indent_scenario_counterexample :
    (applyFileEdits (fun _ _ => []) ("    foo()".data)
        [⟨"  foo()".data, "bar()".data⟩] false).disk = "  bar()".data
    ∧ "  bar()".data ≠ "    bar()".data := by
  exact ⟨rfl, by decide⟩

/-- C5 (amended): because `"    foo()"` contains `"  foo()"` verbatim,
the exact-substring branch takes precedence over block matching and
replaces just that occurrence, leaving the remaining two spaces — the
result line is `  bar()`; the four-space-preserving block-match
behaviour is not reached on this input. -/
theorem applyFileEdits_indent_scenario :
    jsIncludes ("    foo()".data) ("  foo()".data) = true
    ∧ (applyFileEdits (fun _ _ => []) ("    foo()".data)
        [⟨"  foo()".data, "bar()".data⟩] false).disk = "  bar()".data := by
  exact ⟨by decide, rfl⟩

end GitWorkspace
